import Mathlib

/-!
Shallow embedding of the PLC data-point polling service
(`PlcService`, backend `plc.service.ts`) and of the frontend int32
tag decoder (`DataSetCachePage.tsx`), together with proofs of the
specification's claims about them.

The service's mutable fields (`pollingTimers`, `isPollingActive`,
`readCount`, `pollingStartTime`) and the two external stores (data-point
registry, cache rows) are collected into one explicit state record
`PlcState`.  JS `Map` objects are embedded as association lists,
`setInterval` / `clearInterval` as allocation of fresh timer ids from a
counter plus a list of live timer ids.  The external device transport
(`PlcCommunicationService`) is an oracle record of possibly-failing
read/write functions; thrown exceptions become `Except.error` values.
Operations that can throw to their caller while also mutating state are
embedded as functions returning `Except String Unit × PlcState`, so that
a thrown error still reports the (un)changed state.
-/

namespace PlcMonitor

/-- Device storage regions, from the `DeviceCode` enum referenced by
`getDeviceCode` (the enum itself lives in the external communication
service; the five region names D/R/M/X/Y are fixed by the code's map). -/
inductive DeviceCode
  | D | R | M | X | Y
deriving DecidableEq, Repr

/-- The union type `number[] | string | boolean` of PLC values
(`PlcValue` in `plc.types.ts`), as a tagged variant. -/
inductive PlcValue
  | nums (xs : List Int)
  | str (s : String)
  | bool (b : Bool)
deriving DecidableEq, Repr

/-- A registered data-point definition (`DataPoint` entity).  The
`type` discriminator is kept as a string because the service code
defends against unknown discriminators with `default` branches. -/
structure DataPoint where
  key : String
  description : String
  addressType : String
  address : Nat
  length : Nat
  bit : Option Nat
  type : String
  pollingInterval : Nat
deriving DecidableEq, Repr

/-- One cached row (`PlcCache` entity): latest value, timestamp
(milliseconds), and optional error message. -/
structure CacheEntry where
  value : PlcValue
  timestamp : Int
  error : Option String
deriving DecidableEq, Repr

/-- Registration request body (`RegisterDataPointDto`); `pollingInterval`
is optional and defaulted by the service. -/
structure RegisterDataPointDto where
  key : String
  description : String
  addressType : String
  address : Nat
  length : Nat
  bit : Option Nat
  type : String
  pollingInterval : Option Nat
deriving DecidableEq, Repr

/-- The external device transport (`PlcCommunicationService`), as an
oracle of possibly-failing calls.  A throwing call is an `error`. -/
structure Device where
  connectResult : Except String Unit
  readNumbers : DeviceCode → Nat → Nat → Except String (List Int)
  readString : DeviceCode → Nat → Nat → Except String String
  readBit : DeviceCode → Nat → Nat → Except String Bool
  writeNumbers : DeviceCode → Nat → List Int → Except String Unit
  writeString : DeviceCode → Nat → String → Except String Unit
  writeBit : DeviceCode → Nat → Nat → Bool → Except String Unit

/-- Association-list lookup, embedding `Map.get` / keyed `findOne`. -/
def lookupKey {α : Type} : List (String × α) → String → Option α
  | [], _ => none
  | (k', v) :: rest, k => if k' = k then some v else lookupKey rest k

/-- Association-list deletion, embedding `Map.delete`. -/
def eraseKey {α : Type} : List (String × α) → String → List (String × α)
  | [], _ => []
  | (k', v) :: rest, k =>
    if k' = k then eraseKey rest k else (k', v) :: eraseKey rest k

/-- Association-list insert-or-replace, embedding `Map.set` and the
cache store's upsert (`saveCache`). -/
def setKey {α : Type} : List (String × α) → String → α → List (String × α)
  | [], k, v => [(k, v)]
  | (k', v') :: rest, k, v =>
    if k' = k then (k, v) :: rest else (k', v') :: setKey rest k v

/-- Registry lookup by key (`db.findDataPoint`). -/
def findDataPoint : List DataPoint → String → Option DataPoint
  | [], _ => none
  | dp :: rest, k => if dp.key = k then some dp else findDataPoint rest k

/-- The whole mutable state of the service plus its two stores. -/
structure PlcState where
  pollingTimers : List (String × Nat)
  timersLive : List Nat
  nextTimerId : Nat
  isPollingActive : Bool
  isConnected : Bool
  readCount : Nat
  pollingStartTime : Option Int
  registry : List DataPoint
  cache : List (String × CacheEntry)
deriving DecidableEq, Repr

deriving instance DecidableEq for Except

/-- JS `String.prototype.toUpperCase` on the code's ASCII region names:
upper-case every character. -/
def toUpperCase (s : String) : String :=
  ⟨s.data.map Char.toUpper⟩

/-- The five-entry region map built inside `getDeviceCode`. -/
def deviceCodeMap : List (String × DeviceCode) :=
  [("D", .D), ("R", .R), ("M", .M), ("X", .X), ("Y", .Y)]

/-- `PlcService.getDeviceCode`: upper-case the address type, look it up
in the five-entry region map, and fail on a miss. -/
def getDeviceCode (addressType : String) : Except String DeviceCode :=
  match lookupKey deviceCodeMap (toUpperCase addressType) with
  | some c => .ok c
  | none => .error ("Invalid address type: " ++ addressType)

/-- `PlcService.getEmptyValueForType`: the type-appropriate empty value
substituted into the cache when a poll fails. -/
def getEmptyValueForType (type : String) : PlcValue :=
  match type with
  | "number" => .nums []
  | "bool" => .bool false
  | _ => .str ""

/-- The `try` body of `pollDataPoint` up to the decoded value: resolve
the region, dispatch on the value kind, read via the transport. -/
def readDataPoint (dev : Device) (dp : DataPoint) : Except String PlcValue :=
  match getDeviceCode dp.addressType with
  | .error e => .error e
  | .ok dc =>
    match dp.type with
    | "number" => (dev.readNumbers dc dp.address dp.length).map PlcValue.nums
    | "string" => (dev.readString dc dp.address dp.length).map PlcValue.str
    | "bool" =>
      match dp.bit with
      | none => .error ("Bit position required for " ++ dp.key)
      | some b => (dev.readBit dc dp.address b).map PlcValue.bool
    | t => .error ("Unknown type: " ++ t)

/-- `PlcService.pollDataPoint`: on success increment `readCount` and
upsert the value with `error = undefined`; on any exception upsert the
type-appropriate empty value with the failure message.  The function is
total: no exception escapes to a caller. -/
def pollDataPoint (dev : Device) (now : Int) (dp : DataPoint)
    (s : PlcState) : PlcState :=
  match readDataPoint dev dp with
  | .ok v =>
    { s with readCount := s.readCount + 1,
             cache := setKey s.cache dp.key ⟨v, now, none⟩ }
  | .error msg =>
    { s with cache :=
        setKey s.cache dp.key ⟨getEmptyValueForType dp.type, now, some msg⟩ }

/-- `PlcService.stopPollingForDataPoint`: clear and remove the key's
timer when one is present, otherwise do nothing. -/
def stopPollingForDataPoint (key : String) (s : PlcState) : PlcState :=
  match lookupKey s.pollingTimers key with
  | some t =>
    { s with timersLive := s.timersLive.erase t,
             pollingTimers := eraseKey s.pollingTimers key }
  | none => s

/-- `PlcService.startPollingForDataPoint`: stop any existing timer for
the key, allocate a fresh interval timer, record it in the map, and run
one immediate poll. -/
def startPollingForDataPoint (dev : Device) (now : Int) (dp : DataPoint)
    (s : PlcState) : PlcState :=
  let s1 := stopPollingForDataPoint dp.key s
  let t := s1.nextTimerId
  let s2 := { s1 with nextTimerId := t + 1,
                      timersLive := t :: s1.timersLive,
                      pollingTimers := setKey s1.pollingTimers dp.key t }
  pollDataPoint dev now dp s2

/-- `PlcService.startPolling`: no-op when already active; otherwise
ensure the connection, set the active flag, reset the metrics, and start
a timer for every registered data point. -/
def startPolling (dev : Device) (now : Int) (s : PlcState) :
    Except String Unit × PlcState :=
  if s.isPollingActive then (.ok (), s)
  else
    match (if s.isConnected then Except.ok () else dev.connectResult) with
    | .error e => (.error e, s)
    | .ok _ =>
      let s1 := { s with isConnected := true,
                         isPollingActive := true,
                         readCount := 0,
                         pollingStartTime := some now }
      (.ok (), s1.registry.foldl
        (fun st dp => startPollingForDataPoint dev now dp st) s1)

/-- `PlcService.stopPolling`: no-op when already inactive; otherwise
clear the active flag and the metrics, clear every timer in the map, and
empty the map. -/
def stopPolling (s : PlcState) : PlcState :=
  if s.isPollingActive then
    { s with isPollingActive := false,
             readCount := 0,
             pollingStartTime := none,
             timersLive :=
               s.pollingTimers.foldl (fun acc p => acc.erase p.2) s.timersLive,
             pollingTimers := [] }
  else s

/-- Modelled from the spec: the `RegisterDataPointDto` validation layer
(the dto file is not among the sources) rejects a `pollIntervalMs`
below the configured floor of 100ms at registration time. -/
def validateRegisterDto (dto : RegisterDataPointDto) : Except String Unit :=
  match dto.pollingInterval with
  | some n =>
    if n < 100 then .error "pollingInterval below minimum floor (100ms)"
    else .ok ()
  | none => .ok ()

/-- Modelled from the spec: the external registry store
(`db.createDataPoint`) must reject creating a definition with a
duplicate key; otherwise it appends the definition. -/
def createDataPoint (registry : List DataPoint) (dp : DataPoint) :
    Except String (List DataPoint) :=
  match findDataPoint registry dp.key with
  | some _ => .error ("Duplicate key: " ++ dp.key)
  | none => .ok (registry ++ [dp])

/-- The `DataPoint` built field-by-field from the dto at the top of
`registerDataPoint`, with the interval defaulted to 1000ms. -/
def dataPointOfDto (dto : RegisterDataPointDto) : DataPoint :=
  { key := dto.key, description := dto.description,
    addressType := dto.addressType, address := dto.address,
    length := dto.length, bit := dto.bit, type := dto.type,
    pollingInterval := dto.pollingInterval.getD 1000 }

/-- `PlcService.registerDataPoint`: validate the dto, build the
definition (defaulting the interval to 1000ms), persist it, and — when
polling is active — immediately start its timer. -/
def registerDataPoint (dev : Device) (now : Int)
    (dto : RegisterDataPointDto) (s : PlcState) :
    Except String Unit × PlcState :=
  match validateRegisterDto dto with
  | .error e => (.error e, s)
  | .ok _ =>
    match createDataPoint s.registry (dataPointOfDto dto) with
    | .error e => (.error e, s)
    | .ok reg =>
      let s1 := { s with registry := reg }
      if s1.isPollingActive then
        (.ok (), startPollingForDataPoint dev now (dataPointOfDto dto) s1)
      else (.ok (), s1)

/-- `PlcService.unregisterDataPoint`: stop the key's polling first,
then delete the definition from the registry. -/
def unregisterDataPoint (key : String) (s : PlcState) : PlcState :=
  let s1 := stopPollingForDataPoint key s
  { s1 with registry := s1.registry.filter (fun dp => dp.key != key) }

/-- `PlcService.writeData`: look up the definition, resolve the region,
validate the value against the definition's type, write to the device,
and only then upsert the cache.  Every failure is returned to the
caller together with the untouched state. -/
def writeData (dev : Device) (now : Int) (key : String) (value : PlcValue)
    (s : PlcState) : Except String Unit × PlcState :=
  match findDataPoint s.registry key with
  | none => (.error ("Data point not found: " ++ key), s)
  | some dp =>
    match getDeviceCode dp.addressType with
    | .error e => (.error e, s)
    | .ok dc =>
      let write : Except String Unit :=
        match dp.type with
        | "number" =>
          match value with
          | .nums xs => dev.writeNumbers dc dp.address xs
          | _ => .error ("Value must be number array for " ++ key)
        | "string" =>
          match value with
          | .str v => dev.writeString dc dp.address v
          | _ => .error ("Value must be string for " ++ key)
        | "bool" =>
          match value with
          | .bool b =>
            match dp.bit with
            | none => .error ("Bit position required for " ++ key)
            | some bit => dev.writeBit dc dp.address bit b
          | _ => .error ("Value must be boolean for " ++ key)
        | t => .error ("Unknown data point type: " ++ t)
      match write with
      | .error e => (.error e, s)
      | .ok _ =>
        (.ok (), { s with cache := setKey s.cache key ⟨value, now, none⟩ })

/-- `PlcService.getCacheItem` / `db.findCache`. -/
def getCacheItem (s : PlcState) (key : String) : Option CacheEntry :=
  lookupKey s.cache key

/-- Result shape of `getPollingMetrics`. -/
structure PollingMetrics where
  readCount : Nat
  readsPerSecond : Int
  elapsedSeconds : Int
deriving DecidableEq, Repr

/-- `PlcService.getPollingMetrics`: zeros unless active with a start
time; otherwise floor-divide elapsed milliseconds and reads. -/
def getPollingMetrics (now : Int) (s : PlcState) : PollingMetrics :=
  if s.isPollingActive = false then ⟨0, 0, 0⟩
  else
    match s.pollingStartTime with
    | none => ⟨0, 0, 0⟩
    | some start =>
      let elapsedSeconds := (now - start).fdiv 1000
      let readsPerSecond :=
        if 0 < elapsedSeconds then (s.readCount : Int).fdiv elapsedSeconds
        else 0
      ⟨s.readCount, readsPerSecond, elapsedSeconds⟩

/-- Whether a scheduled interval tick can fire for `key`: the scheduler
only ever fires ticks from a timer registered in `pollingTimers`. -/
def canTick (s : PlcState) (key : String) : Bool :=
  (lookupKey s.pollingTimers key).isSome

/-- One scheduled interval tick for `dp`: fires `pollDataPoint` when the
key's timer is present, otherwise nothing happens. -/
def scheduledTick (dev : Device) (now : Int) (dp : DataPoint)
    (s : PlcState) : PlcState :=
  if canTick s dp.key then pollDataPoint dev now dp s else s

/-- Int32 sign reinterpretation of a 32-bit unsigned pattern, as JS
bitwise operators produce (`ToInt32`). -/
def int32OfUInt32 (n : Nat) : Int :=
  if n < 2147483648 then (n : Int) else (n : Int) - 4294967296

/-- The `int32` case of `renderTagValue` in `DataSetCachePage.tsx`:
`(hi << 16) | lo` under JS 32-bit signed semantics (each word reduced to
its low 16 bits, the word domain), then the source's explicit
`raw − 4294967296` adjustment for values above 2147483647. -/
def decodeInt32 (lo hi : Nat) : Int :=
  let val := int32OfUInt32 ((hi % 65536) * 65536 + lo % 65536)
  if val > 2147483647 then val - 4294967296 else val

/-- Modelled from the spec: the write-side int32 encoder (the backend
tag codec is not among the sources) — take the 32-bit two's-complement
pattern of `v` and split it low-word-first into `[lo, hi]`. -/
def encodeInt32 (v : Int) : Nat × Nat :=
  let raw := (v % 4294967296).toNat
  (raw % 65536, raw / 65536)

/-- The scheduler's structural timer invariant: map keys are unique, the
set of live interval timers is exactly (a permutation of) the timer ids
recorded in the map, and every live id was allocated below the
allocation counter. -/
def TimerInv (s : PlcState) : Prop :=
  (s.pollingTimers.map Prod.fst).Nodup ∧
  s.timersLive.Nodup ∧
  s.timersLive.Perm (s.pollingTimers.map Prod.snd) ∧
  ∀ t ∈ s.timersLive, t < s.nextTimerId

instance (s : PlcState) : Decidable (TimerInv s) := by
  unfold TimerInv
  infer_instance

section AssocLemmas

variable {α : Type}

theorem lookupKey_setKey_self (l : List (String × α)) (k : String) (v : α) :
    lookupKey (setKey l k v) k = some v := by
  induction l with
  | nil => simp [setKey, lookupKey]
  | cons p rest ih =>
    obtain ⟨k', v'⟩ := p
    by_cases h : k' = k <;> simp [setKey, lookupKey, h, ih]

theorem lookupKey_setKey_ne (l : List (String × α)) {k k' : String} (v : α)
    (h : k' ≠ k) : lookupKey (setKey l k v) k' = lookupKey l k' := by
  induction l with
  | nil => simp [setKey, lookupKey, Ne.symm h]
  | cons p rest ih =>
    obtain ⟨k₀, v₀⟩ := p
    by_cases h0 : k₀ = k
    · subst h0
      simp [setKey, lookupKey, Ne.symm h]
    · simp [setKey, lookupKey, h0, ih]

theorem lookupKey_none_iff (l : List (String × α)) (k : String) :
    lookupKey l k = none ↔ k ∉ l.map Prod.fst := by
  induction l with
  | nil => simp [lookupKey]
  | cons p rest ih =>
    obtain ⟨k', v'⟩ := p
    by_cases h : k' = k
    · subst h
      simp [lookupKey]
    · simp [lookupKey, h, ih, Ne.symm h]

theorem eraseKey_of_not_mem {l : List (String × α)} {k : String}
    (h : k ∉ l.map Prod.fst) : eraseKey l k = l := by
  induction l with
  | nil => rfl
  | cons p rest ih =>
    obtain ⟨k', v'⟩ := p
    simp only [List.map_cons, List.mem_cons, not_or] at h
    simp [eraseKey, Ne.symm h.1, ih h.2]

theorem eraseKey_sublist (l : List (String × α)) (k : String) :
    (eraseKey l k).Sublist l := by
  induction l with
  | nil => simp [eraseKey]
  | cons p rest ih =>
    obtain ⟨k', v'⟩ := p
    by_cases h : k' = k
    · simp only [eraseKey, if_pos h]
      exact ih.trans (List.sublist_cons_self _ _)
    · simp only [eraseKey, if_neg h]
      exact ih.cons₂ (k', v')

theorem lookupKey_eraseKey_self (l : List (String × α)) (k : String) :
    lookupKey (eraseKey l k) k = none := by
  induction l with
  | nil => rfl
  | cons p rest ih =>
    obtain ⟨k', v'⟩ := p
    by_cases h : k' = k <;> simp [eraseKey, lookupKey, h, ih]

theorem setKey_of_lookup_none {l : List (String × α)} {k : String}
    (h : lookupKey l k = none) (v : α) : setKey l k v = l ++ [(k, v)] := by
  induction l with
  | nil => rfl
  | cons p rest ih =>
    obtain ⟨k', v'⟩ := p
    by_cases h0 : k' = k
    · simp [lookupKey, h0] at h
    · simp only [lookupKey, if_neg h0] at h
      simp [setKey, h0, ih h]

theorem perm_cons_eraseKey {l : List (String × α)} {k : String} {t : α}
    (hnd : (l.map Prod.fst).Nodup) (h : lookupKey l k = some t) :
    l.Perm ((k, t) :: eraseKey l k) := by
  induction l with
  | nil => simp [lookupKey] at h
  | cons p rest ih =>
    obtain ⟨k', v'⟩ := p
    simp only [List.map_cons, List.nodup_cons] at hnd
    by_cases h0 : k' = k
    · subst h0
      have hv : v' = t := by simpa [lookupKey] using h
      subst hv
      have hre : eraseKey rest k' = rest := eraseKey_of_not_mem hnd.1
      simp [eraseKey, hre]
    · simp only [lookupKey, if_neg h0] at h
      have hstep := (ih hnd.2 h).cons (k', v')
      refine hstep.trans ?_
      simpa [eraseKey, h0] using List.Perm.swap (k, t) (k', v') (eraseKey rest k)

end AssocLemmas

section FieldLemmas

/-- `pollDataPoint` only touches `readCount` and the cache. -/
theorem pollDataPoint_fields (dev : Device) (now : Int) (dp : DataPoint)
    (s : PlcState) :
    (pollDataPoint dev now dp s).pollingTimers = s.pollingTimers ∧
    (pollDataPoint dev now dp s).timersLive = s.timersLive ∧
    (pollDataPoint dev now dp s).nextTimerId = s.nextTimerId ∧
    (pollDataPoint dev now dp s).registry = s.registry ∧
    (pollDataPoint dev now dp s).isPollingActive = s.isPollingActive ∧
    (pollDataPoint dev now dp s).isConnected = s.isConnected ∧
    (pollDataPoint dev now dp s).pollingStartTime = s.pollingStartTime := by
  cases h : readDataPoint dev dp <;> simp [pollDataPoint, h]

theorem pollDataPoint_pollingTimers (dev : Device) (now : Int)
    (dp : DataPoint) (s : PlcState) :
    (pollDataPoint dev now dp s).pollingTimers = s.pollingTimers :=
  (pollDataPoint_fields dev now dp s).1

theorem pollDataPoint_timersLive (dev : Device) (now : Int)
    (dp : DataPoint) (s : PlcState) :
    (pollDataPoint dev now dp s).timersLive = s.timersLive :=
  (pollDataPoint_fields dev now dp s).2.1

/-- `stopPollingForDataPoint` only touches the timer map and live set. -/
theorem stopPollingForDataPoint_fields (key : String) (s : PlcState) :
    (stopPollingForDataPoint key s).nextTimerId = s.nextTimerId ∧
    (stopPollingForDataPoint key s).registry = s.registry ∧
    (stopPollingForDataPoint key s).cache = s.cache ∧
    (stopPollingForDataPoint key s).isPollingActive = s.isPollingActive ∧
    (stopPollingForDataPoint key s).isConnected = s.isConnected ∧
    (stopPollingForDataPoint key s).readCount = s.readCount ∧
    (stopPollingForDataPoint key s).pollingStartTime = s.pollingStartTime := by
  cases h : lookupKey s.pollingTimers key <;> simp [stopPollingForDataPoint, h]

theorem stopPollingForDataPoint_nextTimerId (key : String) (s : PlcState) :
    (stopPollingForDataPoint key s).nextTimerId = s.nextTimerId :=
  (stopPollingForDataPoint_fields key s).1

/-- `startPollingForDataPoint` leaves the registry, the scheduler flags
and the metrics fields alone apart from what its immediate poll does. -/
theorem startPollingForDataPoint_fields (dev : Device) (now : Int)
    (dp : DataPoint) (s : PlcState) :
    (startPollingForDataPoint dev now dp s).registry = s.registry ∧
    (startPollingForDataPoint dev now dp s).isPollingActive =
      s.isPollingActive ∧
    (startPollingForDataPoint dev now dp s).isConnected = s.isConnected ∧
    (startPollingForDataPoint dev now dp s).pollingStartTime =
      s.pollingStartTime := by
  unfold startPollingForDataPoint
  refine ⟨?_, ?_, ?_, ?_⟩ <;>
    simp [(pollDataPoint_fields ..).2.2.2,
      (stopPollingForDataPoint_fields ..).2.1,
      (stopPollingForDataPoint_fields ..).2.2.2]

end FieldLemmas

section TimerInvLemmas

theorem lookupKey_mem_map_snd {α : Type} {l : List (String × α)} {k : String}
    {t : α} (h : lookupKey l k = some t) : t ∈ l.map Prod.snd := by
  induction l with
  | nil => simp [lookupKey] at h
  | cons p rest ih =>
    obtain ⟨k', v'⟩ := p
    by_cases h0 : k' = k
    · simp only [lookupKey, if_pos h0, Option.some.injEq] at h
      simp [h]
    · simp only [lookupKey, if_neg h0] at h
      simp [ih h]

theorem timerInv_stopPollingForDataPoint {s : PlcState} (key : String)
    (hInv : TimerInv s) : TimerInv (stopPollingForDataPoint key s) := by
  obtain ⟨hkeys, hnd, hperm, hbound⟩ := hInv
  cases hl : lookupKey s.pollingTimers key with
  | none => simpa [stopPollingForDataPoint, hl] using ⟨hkeys, hnd, hperm, hbound⟩
  | some t =>
    have hsub := eraseKey_sublist s.pollingTimers key
    have hmapperm :
        (s.pollingTimers.map Prod.snd).Perm
          (t :: (eraseKey s.pollingTimers key).map Prod.snd) := by
      simpa using (perm_cons_eraseKey hkeys hl).map Prod.snd
    refine ⟨?_, ?_, ?_, ?_⟩ <;> simp only [stopPollingForDataPoint, hl]
    · exact (hsub.map Prod.fst).nodup hkeys
    · exact hnd.erase t
    · have := (hperm.trans hmapperm).erase t
      simpa [List.erase_cons_head] using this
    · intro t' ht'
      exact hbound t' (List.mem_of_mem_erase ht')

theorem lookup_stopPollingForDataPoint_self (key : String) (s : PlcState) :
    lookupKey (stopPollingForDataPoint key s).pollingTimers key = none := by
  cases hl : lookupKey s.pollingTimers key with
  | none => simp [stopPollingForDataPoint, hl]
  | some t =>
    simpa [stopPollingForDataPoint, hl] using
      lookupKey_eraseKey_self s.pollingTimers key

theorem timerInv_pollDataPoint {s : PlcState} (dev : Device) (now : Int)
    (dp : DataPoint) (hInv : TimerInv s) :
    TimerInv (pollDataPoint dev now dp s) := by
  have hf := pollDataPoint_fields dev now dp s
  unfold TimerInv
  rw [hf.1, hf.2.1, hf.2.2.1]
  exact hInv

theorem timerInv_startPollingForDataPoint {s : PlcState} (dev : Device)
    (now : Int) (dp : DataPoint) (hInv : TimerInv s) :
    TimerInv (startPollingForDataPoint dev now dp s) := by
  have h1 : TimerInv (stopPollingForDataPoint dp.key s) :=
    timerInv_stopPollingForDataPoint dp.key hInv
  have hlook := lookup_stopPollingForDataPoint_self dp.key s
  set s1 := stopPollingForDataPoint dp.key s with hs1
  obtain ⟨hkeys, hnd, hperm, hbound⟩ := h1
  have hset := setKey_of_lookup_none hlook s1.nextTimerId
  have hnotmem : dp.key ∉ s1.pollingTimers.map Prod.fst :=
    (lookupKey_none_iff _ _).mp hlook
  apply timerInv_pollDataPoint
  refine ⟨?_, ?_, ?_, ?_⟩ <;> simp only [hset, List.map_append, List.map_cons]
  · exact ((List.perm_append_singleton dp.key _).symm.nodup
      (List.nodup_cons.mpr ⟨hnotmem, hkeys⟩))
  · refine List.nodup_cons.mpr ⟨fun hm => ?_, hnd⟩
    exact absurd (hbound _ hm) (lt_irrefl _)
  · exact (hperm.cons s1.nextTimerId).trans
      ((List.perm_append_singleton s1.nextTimerId _).symm)
  · intro t' ht'
    rcases List.mem_cons.mp ht' with h | h
    · omega
    · exact Nat.lt_succ_of_lt (hbound t' h)

theorem timerInv_foldl_startPollingForDataPoint (dev : Device) (now : Int)
    (l : List DataPoint) :
    ∀ s : PlcState, TimerInv s →
      TimerInv (l.foldl (fun st dp => startPollingForDataPoint dev now dp st) s) := by
  induction l with
  | nil => intro s h; simp only [List.foldl_nil]; exact h
  | cons dp rest ih =>
    intro s h
    exact ih _ (timerInv_startPollingForDataPoint dev now dp h)

theorem foldl_erase_eq_nil :
    ∀ (l : List (String × Nat)) (live : List Nat), live.Nodup →
      live.Perm (l.map Prod.snd) →
      l.foldl (fun acc p => acc.erase p.2) live = [] := by
  intro l
  induction l with
  | nil =>
    intro live _ hperm
    simpa using hperm.eq_nil
  | cons p rest ih =>
    intro live hnd hperm
    have hperm' : (live.erase p.2).Perm (rest.map Prod.snd) := by
      have := hperm.erase p.2
      simpa [List.erase_cons_head] using this
    simpa using ih (live.erase p.2) (hnd.erase p.2) hperm'

theorem timerInv_stopPolling {s : PlcState} (hInv : TimerInv s) :
    TimerInv (stopPolling s) := by
  obtain ⟨hkeys, hnd, hperm, hbound⟩ := hInv
  by_cases h : s.isPollingActive = true
  · refine ⟨?_, ?_, ?_, ?_⟩ <;>
      simp [stopPolling, h, foldl_erase_eq_nil s.pollingTimers s.timersLive hnd hperm]
  · simp only [Bool.not_eq_true] at h
    simpa [stopPolling, h] using ⟨hkeys, hnd, hperm, hbound⟩

theorem timerInv_startPolling (dev : Device) (now : Int) {s : PlcState}
    (hInv : TimerInv s) : TimerInv (startPolling dev now s).2 := by
  unfold startPolling
  split
  · exact hInv
  · split
    · exact hInv
    · exact timerInv_foldl_startPollingForDataPoint dev now _ _ hInv

theorem timerInv_registerDataPoint (dev : Device) (now : Int)
    (dto : RegisterDataPointDto) {s : PlcState} (hInv : TimerInv s) :
    TimerInv (registerDataPoint dev now dto s).2 := by
  unfold registerDataPoint
  dsimp only
  repeat' split
  all_goals
    first
    | exact timerInv_startPollingForDataPoint dev now _ hInv
    | exact hInv

theorem timerInv_unregisterDataPoint (key : String) {s : PlcState}
    (hInv : TimerInv s) : TimerInv (unregisterDataPoint key s) :=
  timerInv_stopPollingForDataPoint key hInv

theorem timerInv_writeData (dev : Device) (now : Int) (key : String)
    (value : PlcValue) {s : PlcState} (hInv : TimerInv s) :
    TimerInv (writeData dev now key value s).2 := by
  unfold writeData
  dsimp only
  repeat' split
  all_goals exact hInv

theorem timerInv_scheduledTick (dev : Device) (now : Int) (dp : DataPoint)
    {s : PlcState} (hInv : TimerInv s) :
    TimerInv (scheduledTick dev now dp s) := by
  unfold scheduledTick
  split
  · exact timerInv_pollDataPoint dev now dp hInv
  · exact hInv

end TimerInvLemmas

section ActiveLemmas

theorem foldl_startPollingForDataPoint_active (dev : Device) (now : Int)
    (l : List DataPoint) :
    ∀ s : PlcState,
      (l.foldl (fun st dp => startPollingForDataPoint dev now dp st)
        s).isPollingActive = s.isPollingActive := by
  induction l with
  | nil => intro s; rfl
  | cons dp rest ih =>
    intro s
    rw [List.foldl_cons, ih]
    exact (startPollingForDataPoint_fields dev now dp s).2.1

theorem foldl_startPollingForDataPoint_registry (dev : Device) (now : Int)
    (l : List DataPoint) :
    ∀ s : PlcState,
      (l.foldl (fun st dp => startPollingForDataPoint dev now dp st)
        s).registry = s.registry := by
  induction l with
  | nil => intro s; rfl
  | cons dp rest ih =>
    intro s
    rw [List.foldl_cons, ih]
    exact (startPollingForDataPoint_fields dev now dp s).1

theorem startPolling_noop_of_active (dev : Device) (now : Int)
    {s : PlcState} (h : s.isPollingActive = true) :
    startPolling dev now s = (.ok (), s) := by
  unfold startPolling
  rw [if_pos h]

theorem startPolling_ok_active (dev : Device) (now : Int) (s : PlcState)
    (h : (startPolling dev now s).1 = .ok ()) :
    (startPolling dev now s).2.isPollingActive = true := by
  unfold startPolling
  by_cases hA : s.isPollingActive = true
  · simp [hA]
  · simp only [Bool.not_eq_true] at hA
    simp only [hA, Bool.false_eq_true, if_false]
    cases hc : (if s.isConnected then Except.ok () else dev.connectResult) with
    | error e =>
      exfalso
      unfold startPolling at h
      simp [hA, hc] at h
    | ok u =>
      simp only []
      rw [foldl_startPollingForDataPoint_active]

end ActiveLemmas

section RegisterLemmas

theorem createDataPoint_ok {registry reg : List DataPoint} {dp : DataPoint}
    (h : createDataPoint registry dp = .ok reg) : reg = registry ++ [dp] := by
  unfold createDataPoint at h
  cases hf : findDataPoint registry dp.key <;> rw [hf] at h
  · exact (Except.ok.injEq _ _ ▸ h.symm)
  · exact Except.noConfusion h

theorem validateRegisterDto_ok_floor {dto : RegisterDataPointDto}
    (h : validateRegisterDto dto = .ok ()) :
    100 ≤ (dataPointOfDto dto).pollingInterval := by
  unfold validateRegisterDto at h
  unfold dataPointOfDto
  cases hp : dto.pollingInterval with
  | none => simp [hp]
  | some n =>
    rw [hp] at h
    by_cases hn : n < 100
    · simp [hn] at h
    · simp [hp]
      omega

theorem registerDataPoint_ok (dev : Device) (now : Int)
    (dto : RegisterDataPointDto) (s : PlcState)
    (hok : (registerDataPoint dev now dto s).1 = .ok ()) :
    validateRegisterDto dto = .ok () ∧
    (registerDataPoint dev now dto s).2.registry =
      s.registry ++ [dataPointOfDto dto] := by
  unfold registerDataPoint at hok ⊢
  cases hv : validateRegisterDto dto with
  | error e => rw [hv] at hok; exact Except.noConfusion hok
  | ok u =>
    cases u
    rw [hv] at hok
    dsimp only at hok ⊢
    cases hc : createDataPoint s.registry (dataPointOfDto dto) with
    | error e => rw [hc] at hok; exact Except.noConfusion hok
    | ok reg =>
      have hreg := createDataPoint_ok hc
      subst hreg
      refine ⟨rfl, ?_⟩
      by_cases hA : s.isPollingActive = true <;>
        simp [hA, (startPollingForDataPoint_fields ..).1]

theorem findDataPoint_filter_self (l : List DataPoint) (key : String) :
    findDataPoint (l.filter (fun dp => dp.key != key)) key = none := by
  induction l with
  | nil => rfl
  | cons dp rest ih =>
    by_cases h : dp.key = key
    · simp [List.filter_cons, h, ih]
    · simp [List.filter_cons, h, findDataPoint, ih]

end RegisterLemmas

section Fixtures

/-- A transport oracle on which every call succeeds. -/
def okDevice : Device where
  connectResult := .ok ()
  readNumbers := fun _ _ n => .ok (List.replicate n 0)
  readString := fun _ _ _ => .ok ""
  readBit := fun _ _ _ => .ok false
  writeNumbers := fun _ _ _ => .ok ()
  writeString := fun _ _ _ => .ok ()
  writeBit := fun _ _ _ _ => .ok ()

/-- A transport oracle on which every call fails with a link error. -/
def failDevice : Device where
  connectResult := .error "link down"
  readNumbers := fun _ _ _ => .error "link down"
  readString := fun _ _ _ => .error "link down"
  readBit := fun _ _ _ => .error "link down"
  writeNumbers := fun _ _ _ => .error "link down"
  writeString := fun _ _ _ => .error "link down"
  writeBit := fun _ _ _ _ => .error "link down"

/-- A registered numeric data point, two words at D100, 500ms cadence. -/
def dpNum : DataPoint :=
  { key := "temp", description := "temperature", addressType := "D",
    address := 100, length := 2, bit := none, type := "number",
    pollingInterval := 500 }

/-- A stopped state whose registry holds `dpNum` and nothing else. -/
def stStopped : PlcState :=
  { pollingTimers := [], timersLive := [], nextTimerId := 0,
    isPollingActive := false, isConnected := false, readCount := 0,
    pollingStartTime := none, registry := [dpNum], cache := [] }

/-- A running state: `dpNum` registered with live timer id 0, counter 3. -/
def stRunning : PlcState :=
  { pollingTimers := [("temp", 0)], timersLive := [0], nextTimerId := 1,
    isPollingActive := true, isConnected := true, readCount := 3,
    pollingStartTime := some 1000, registry := [dpNum],
    cache := [("temp", ⟨.nums [7, 8], 1500, none⟩)] }

/-- A registration dto whose interval is below the 100ms floor. -/
def dtoBad : RegisterDataPointDto :=
  { key := "fast", description := "too fast", addressType := "D",
    address := 0, length := 1, bit := none, type := "number",
    pollingInterval := some 50 }

/-- A data point whose address type `q` maps to no device region. -/
def dpBadRegion : DataPoint :=
  { key := "odd", description := "bad region", addressType := "q",
    address := 0, length := 1, bit := none, type := "number",
    pollingInterval := 1000 }

/-- A stopped state whose registry holds only `dpBadRegion`. -/
def stBadRegion : PlcState :=
  { pollingTimers := [], timersLive := [], nextTimerId := 0,
    isPollingActive := false, isConnected := false, readCount := 0,
    pollingStartTime := none, registry := [dpBadRegion], cache := [] }

/-- A valid registration dto (200ms interval). -/
def dtoGood : RegisterDataPointDto :=
  { key := "speed", description := "motor speed", addressType := "R",
    address := 10, length := 1, bit := none, type := "number",
    pollingInterval := some 200 }

end Fixtures

/-- Claim C1: `pollDataPoint` never propagates an exception (it is a
total state transformer); on any failure during region resolution,
transport read or decode it upserts a cache entry for the key holding
the type-appropriate empty value (`[]` for number, `false` for bool,
`""` for string) and the failure message; on success the upserted entry
carries the read value and `error = undefined`. -/
theorem claim_C1_poll_failure_degrades_to_error_entry (dev : Device)
    (now : Int) (dp : DataPoint) (s : PlcState) :
    getCacheItem (pollDataPoint dev now dp s) dp.key =
      some (match readDataPoint dev dp with
            | .ok v => ⟨v, now, none⟩
            | .error m => ⟨getEmptyValueForType dp.type, now, some m⟩) ∧
    getEmptyValueForType "number" = .nums [] ∧
    getEmptyValueForType "bool" = .bool false ∧
    getEmptyValueForType "string" = .str "" := by
  refine ⟨?_, rfl, rfl, rfl⟩
  cases h : readDataPoint dev dp <;>
    simp [pollDataPoint, getCacheItem, h, lookupKey_setKey_self]

/-- Claim C2: a failed `writeData` — validation or transport — returns
the error to the caller with the entire state (in particular the prior
cache entry for the key) unchanged; only a successful device write
upserts the cache. -/
theorem claim_C2_failed_write_leaves_cache_unchanged (dev : Device)
    (now : Int) (key : String) (value : PlcValue) (s : PlcState) :
    (∀ e, (writeData dev now key value s).1 = .error e →
      (writeData dev now key value s).2 = s) ∧
    ((writeData dev now key value s).1 = .ok () →
      (writeData dev now key value s).2 =
        { s with cache := setKey s.cache key ⟨value, now, none⟩ }) := by
  unfold writeData
  dsimp only
  repeat' split
  all_goals
    first
    | exact ⟨fun e h => rfl, fun h => Except.noConfusion h⟩
    | exact ⟨fun e h => Except.noConfusion h, fun h => rfl⟩

/-- Claim C2 witness: a boolean written to the number-array key `temp`
fails and leaves the state untouched; a well-typed write succeeds and
upserts exactly the written value. -/
theorem claim_C2_failed_write_leaves_cache_unchanged_witness :
    (writeData okDevice 2000 "temp" (.bool true) stRunning).2 = stRunning ∧
    (writeData okDevice 2000 "temp" (.nums [1, 2]) stRunning).2 =
      { stRunning with
          cache := setKey stRunning.cache "temp" ⟨.nums [1, 2], 2000, none⟩ } :=
  ⟨(claim_C2_failed_write_leaves_cache_unchanged okDevice 2000 "temp"
      (.bool true) stRunning).1 "Value must be number array for temp" (by decide),
   (claim_C2_failed_write_leaves_cache_unchanged okDevice 2000 "temp"
      (.nums [1, 2]) stRunning).2 (by decide)⟩

/-- Claim C3 counterexample: in the running state `stRunning`
(readCount = 3), a poll attempt that fails on the transport leaves
`readCount` at 3 instead of incrementing it to 4, refuting the claim
that the counter is incremented on every poll attempt including
failures. -/
theorem claim_C3_counterexample :
    ¬ ((pollDataPoint failDevice 2000 dpNum stRunning).readCount =
        stRunning.readCount + 1) := by
  decide

/-- Claim C3 (amended): `readCount` is incremented exactly on the poll
attempts whose read succeeds; a failed poll attempt leaves it
unchanged. -/
theorem claim_C3_readCount_increment_on_success (dev : Device) (now : Int)
    (dp : DataPoint) (s : PlcState) :
    (pollDataPoint dev now dp s).readCount =
      match readDataPoint dev dp with
      | .ok _ => s.readCount + 1
      | .error _ => s.readCount := by
  cases h : readDataPoint dev dp <;> simp [pollDataPoint, h]

/-- Claim C4: a dto whose `pollingInterval` is below the 100ms floor is
rejected at registration time, and every definition accepted by
`registerDataPoint` into a registry of compliant definitions has
`pollingInterval ≥ 100` (the omitted interval defaults to 1000). -/
theorem claim_C4_interval_floor (dev : Device) (now : Int)
    (dto : RegisterDataPointDto) (s : PlcState) :
    (∀ n, dto.pollingInterval = some n → n < 100 →
      ∃ e, (registerDataPoint dev now dto s).1 = .error e) ∧
    ((registerDataPoint dev now dto s).1 = .ok () →
      (∀ dp ∈ s.registry, 100 ≤ dp.pollingInterval) →
      ∀ dp ∈ (registerDataPoint dev now dto s).2.registry,
        100 ≤ dp.pollingInterval) := by
  constructor
  · intro n hn hlt
    refine ⟨"pollingInterval below minimum floor (100ms)", ?_⟩
    unfold registerDataPoint validateRegisterDto
    rw [hn]
    simp [hlt]
  · intro hok hall dp hdp
    obtain ⟨hv, hreg⟩ := registerDataPoint_ok dev now dto s hok
    rw [hreg] at hdp
    rcases List.mem_append.mp hdp with h | h
    · exact hall dp h
    · rw [List.mem_singleton.mp h]
      exact validateRegisterDto_ok_floor hv

/-- Claim C4 witness: a 50ms dto is rejected on the stopped fixture
state, and after accepting the 200ms dto every registered definition
keeps an interval of at least 100ms. -/
theorem claim_C4_interval_floor_witness :
    (∃ e, (registerDataPoint okDevice 0 dtoBad stStopped).1 = .error e) ∧
    (∀ dp ∈ (registerDataPoint okDevice 0 dtoGood stStopped).2.registry,
      100 ≤ dp.pollingInterval) :=
  ⟨(claim_C4_interval_floor okDevice 0 dtoBad stStopped).1 50 (by decide)
      (by decide),
   (claim_C4_interval_floor okDevice 0 dtoGood stStopped).2 (by decide)
      (by decide)⟩

/-- Claim C5: `startPolling` on an already-running scheduler is a
no-op returning the very same state (no timers created or replaced, no
metric reset), and after any successful `startPolling` a second call —
with any device and clock — leaves the state exactly as the first call
left it. -/
theorem claim_C5_start_idempotent (dev dev' : Device) (now now' : Int)
    (s : PlcState) :
    (s.isPollingActive = true → startPolling dev now s = (.ok (), s)) ∧
    ((startPolling dev now s).1 = .ok () →
      startPolling dev' now' (startPolling dev now s).2 =
        (.ok (), (startPolling dev now s).2)) := by
  constructor
  · intro h
    exact startPolling_noop_of_active dev now h
  · intro h
    exact startPolling_noop_of_active dev' now'
      (startPolling_ok_active dev now s h)

/-- Claim C5 witness: starting on the running fixture state returns it
unchanged, and a second start right after a successful start from the
stopped fixture state is a no-op. -/
theorem claim_C5_start_idempotent_witness :
    startPolling okDevice 2000 stRunning = (.ok (), stRunning) ∧
    startPolling failDevice 3000 (startPolling okDevice 2000 stStopped).2 =
      (.ok (), (startPolling okDevice 2000 stStopped).2) :=
  ⟨(claim_C5_start_idempotent okDevice okDevice 2000 2000 stRunning).1
      (by decide),
   (claim_C5_start_idempotent okDevice failDevice 2000 3000 stStopped).2
      (by decide)⟩

/-- Claim C6: stopping a running scheduler clears the active flag, the
read counter, the start time, and every per-key timer (the timer map
becomes empty and — under the timer invariant — no live interval timer
survives), after which `getPollingMetrics` reports all zeros and no
scheduled tick can change the state; stopping an already-stopped
scheduler is a no-op. -/
theorem claim_C6_stop_resets_and_cancels (s : PlcState) (now : Int)
    (dev : Device) (nowT : Int) (dp : DataPoint) :
    (s.isPollingActive = false → stopPolling s = s) ∧
    (s.isPollingActive = true →
      (stopPolling s).isPollingActive = false ∧
      (stopPolling s).readCount = 0 ∧
      (stopPolling s).pollingStartTime = none ∧
      (stopPolling s).pollingTimers = [] ∧
      (TimerInv s → (stopPolling s).timersLive = []) ∧
      getPollingMetrics now (stopPolling s) = ⟨0, 0, 0⟩ ∧
      scheduledTick dev nowT dp (stopPolling s) = stopPolling s) := by
  constructor
  · intro h
    simp [stopPolling, h]
  · intro h
    refine ⟨?_, ?_, ?_, ?_, ?_, ?_, ?_⟩
    · simp [stopPolling, h]
    · simp [stopPolling, h]
    · simp [stopPolling, h]
    · simp [stopPolling, h]
    · intro hInv
      obtain ⟨_, hnd, hperm, _⟩ := hInv
      simp [stopPolling, h, foldl_erase_eq_nil s.pollingTimers s.timersLive hnd hperm]
    · simp [getPollingMetrics, stopPolling, h]
    · have hmt : (stopPolling s).pollingTimers = [] := by simp [stopPolling, h]
      simp [scheduledTick, canTick, hmt, lookupKey]

/-- Claim C6 witness: stopping the running fixture state yields zeroed
metrics, an empty timer map, no surviving live timer, and inertness
under further ticks; stopping the stopped fixture state is a no-op. -/
theorem claim_C6_stop_resets_and_cancels_witness :
    stopPolling stStopped = stStopped ∧
    ((stopPolling stRunning).pollingTimers = [] ∧
      (stopPolling stRunning).timersLive = [] ∧
      getPollingMetrics 9000 (stopPolling stRunning) = ⟨0, 0, 0⟩ ∧
      scheduledTick okDevice 9000 dpNum (stopPolling stRunning) =
        stopPolling stRunning) :=
  ⟨(claim_C6_stop_resets_and_cancels stStopped 9000 okDevice 9000 dpNum).1
      (by decide),
   (fun h => ⟨h.2.2.2.1, h.2.2.2.2.1 (by decide), h.2.2.2.2.2.1,
      h.2.2.2.2.2.2⟩)
    ((claim_C6_stop_resets_and_cancels stRunning 9000 okDevice 9000 dpNum).2
      (by decide))⟩

/-- Claim C7: `unregisterDataPoint` cancels the key's timer (whatever
the overall scheduler state — no hypothesis on `isPollingActive`):
afterwards the key has no timer, its timer id is no longer live (under
the timer invariant), the definition is gone from the registry, the
cache rows are untouched so the last entry stays readable, and no
scheduled tick for that key can fire any more. -/
theorem claim_C7_unregister_cancels_timer_first (key : String)
    (s : PlcState) (dev : Device) (now : Int) (dp : DataPoint) :
    canTick (unregisterDataPoint key s) key = false ∧
    findDataPoint (unregisterDataPoint key s).registry key = none ∧
    (unregisterDataPoint key s).cache = s.cache ∧
    (∀ t, TimerInv s → lookupKey s.pollingTimers key = some t →
      t ∉ (unregisterDataPoint key s).timersLive) ∧
    (dp.key = key →
      scheduledTick dev now dp (unregisterDataPoint key s) =
        unregisterDataPoint key s) := by
  have hlook : lookupKey (unregisterDataPoint key s).pollingTimers key = none := by
    have := lookup_stopPollingForDataPoint_self key s
    simpa [unregisterDataPoint] using this
  refine ⟨?_, ?_, ?_, ?_, ?_⟩
  · simp [canTick, hlook]
  · have := findDataPoint_filter_self (stopPollingForDataPoint key s).registry key
    simpa [unregisterDataPoint] using this
  · simp [unregisterDataPoint, (stopPollingForDataPoint_fields key s).2.2.1]
  · intro t hInv hl
    obtain ⟨_, hnd, _, _⟩ := hInv
    simp only [unregisterDataPoint, stopPollingForDataPoint, hl]
    intro hm
    exact absurd ((hnd.mem_erase_iff).mp hm).1 (by simp)
  · intro hk
    subst hk
    simp [scheduledTick, canTick, hlook]

/-- Claim C7 witness: unregistering `temp` on the running fixture state
(timer id 0 live) removes its timer and its live id, deletes the
definition, keeps the cached row, and makes further `temp` ticks
inert. -/
theorem claim_C7_unregister_cancels_timer_first_witness :
    canTick (unregisterDataPoint "temp" stRunning) "temp" = false ∧
    findDataPoint (unregisterDataPoint "temp" stRunning).registry "temp" =
      none ∧
    (unregisterDataPoint "temp" stRunning).cache = stRunning.cache ∧
    (0 : Nat) ∉ (unregisterDataPoint "temp" stRunning).timersLive ∧
    scheduledTick okDevice 5000 dpNum (unregisterDataPoint "temp" stRunning) =
      unregisterDataPoint "temp" stRunning := by
  have h := claim_C7_unregister_cancels_timer_first "temp" stRunning okDevice
    5000 dpNum
  exact ⟨h.1, h.2.1, h.2.2.1, h.2.2.2.1 0 (by decide) (by decide),
    h.2.2.2.2 (by decide)⟩

/-- Claim C8: the int32 codec round-trips every value of the 32-bit
signed range through the low-word-first pair `[lo, hi]`, including the
two boundary decodes `[0xFFFF, 0xFFFF] → −1` and `[0, 0] → 0`. -/
theorem claim_C8_int32_roundtrip (v : Int) (h1 : -2147483648 ≤ v)
    (h2 : v < 2147483648) :
    decodeInt32 (encodeInt32 v).1 (encodeInt32 v).2 = v ∧
    decodeInt32 65535 65535 = -1 ∧
    decodeInt32 0 0 = 0 := by
  refine ⟨?_, by decide, by decide⟩
  simp only [decodeInt32, encodeInt32, int32OfUInt32]
  split_ifs <;> omega

/-- Claim C8 witness: the round-trip at `v = −2`, together with the two
boundary decodes. -/
theorem claim_C8_int32_roundtrip_witness :
    decodeInt32 (encodeInt32 (-2)).1 (encodeInt32 (-2)).2 = -2 ∧
    decodeInt32 65535 65535 = -1 ∧
    decodeInt32 0 0 = 0 :=
  claim_C8_int32_roundtrip (-2) (by decide) (by decide)

/-- Claim C9: under the structural timer invariant (unique key per map
entry, live interval timers exactly the mapped ids, ids allocated below
the counter), every scheduler operation preserves the invariant, and
re-activating polling for an already-timed key replaces its timer: the
map holds exactly the fresh id for that key and the old id is no longer
live. -/
theorem claim_C9_timer_uniqueness (dev : Device) (now : Int)
    (dp : DataPoint) (dto : RegisterDataPointDto) (key : String)
    (s : PlcState) (hInv : TimerInv s) :
    TimerInv (startPollingForDataPoint dev now dp s) ∧
    TimerInv (stopPollingForDataPoint key s) ∧
    TimerInv (startPolling dev now s).2 ∧
    TimerInv (stopPolling s) ∧
    TimerInv (registerDataPoint dev now dto s).2 ∧
    TimerInv (unregisterDataPoint key s) ∧
    (∀ t, lookupKey s.pollingTimers dp.key = some t →
      lookupKey (startPollingForDataPoint dev now dp s).pollingTimers
          dp.key = some s.nextTimerId ∧
      t ∉ (startPollingForDataPoint dev now dp s).timersLive ∧
      t ≠ s.nextTimerId) := by
  refine ⟨timerInv_startPollingForDataPoint dev now dp hInv,
    timerInv_stopPollingForDataPoint key hInv,
    timerInv_startPolling dev now hInv,
    timerInv_stopPolling hInv,
    timerInv_registerDataPoint dev now dto hInv,
    timerInv_unregisterDataPoint key hInv, ?_⟩
  intro t hl
  obtain ⟨hkeys, hnd, hperm, hbound⟩ := hInv
  have hmem_live : t ∈ s.timersLive :=
    hperm.mem_iff.mpr (lookupKey_mem_map_snd hl)
  have htlt : t < s.nextTimerId := hbound t hmem_live
  unfold startPollingForDataPoint
  simp only [pollDataPoint_pollingTimers, pollDataPoint_timersLive]
  refine ⟨?_, ?_, ?_⟩
  · rw [lookupKey_setKey_self, stopPollingForDataPoint_nextTimerId]
  · simp only [List.mem_cons, not_or]
    constructor
    · rw [stopPollingForDataPoint_nextTimerId]
      omega
    · simp only [stopPollingForDataPoint, hl]
      intro hm
      exact absurd ((hnd.mem_erase_iff).mp hm).1 (by simp)
  · omega

/-- Claim C9 witness: on the running fixture state (key `temp`, timer
id 0 live, counter 1) the invariant is preserved by re-activation and
the old timer id 0 is replaced by the fresh id 1 and is no longer
live. -/
theorem claim_C9_timer_uniqueness_witness :
    TimerInv (startPollingForDataPoint okDevice 2000 dpNum stRunning) ∧
    lookupKey (startPollingForDataPoint okDevice 2000 dpNum
      stRunning).pollingTimers "temp" = some 1 ∧
    (0 : Nat) ∉ (startPollingForDataPoint okDevice 2000 dpNum
      stRunning).timersLive := by
  have h := claim_C9_timer_uniqueness okDevice 2000 dpNum dtoGood "temp"
    stRunning (by decide)
  have hrep := h.2.2.2.2.2.2 0 (by decide)
  exact ⟨h.1, hrep.1, hrep.2.1⟩

/-- Claim C10: region resolution upper-cases its input, so two address
types with the same upper-casing resolve to the same region (in
particular `d` and `D` both give region D); any address type whose
upper-casing is not one of D, R, M, X, Y yields an error rather than an
undefined region; on the poll path that error is captured into the
cache entry, on the write path it is thrown to the caller with the
state unchanged. -/
theorem claim_C10_region_resolution :
    (∀ a b : String, toUpperCase a = toUpperCase b →
      ∀ c, (getDeviceCode a = .ok c ↔ getDeviceCode b = .ok c)) ∧
    (getDeviceCode "d" = .ok .D ∧ getDeviceCode "D" = .ok .D) ∧
    (∀ a : String,
      toUpperCase a ∉ (["D", "R", "M", "X", "Y"] : List String) →
      getDeviceCode a = .error ("Invalid address type: " ++ a)) ∧
    (∀ (dev : Device) (now : Int) (dp : DataPoint) (s : PlcState) m,
      getDeviceCode dp.addressType = .error m →
      getCacheItem (pollDataPoint dev now dp s) dp.key =
        some ⟨getEmptyValueForType dp.type, now, some m⟩) ∧
    (∀ (dev : Device) (now : Int) (key : String) (v : PlcValue)
      (s : PlcState) (dp : DataPoint) m,
      findDataPoint s.registry key = some dp →
      getDeviceCode dp.addressType = .error m →
      writeData dev now key v s = (.error m, s)) := by
  refine ⟨?_, ⟨by decide, by decide⟩, ?_, ?_, ?_⟩
  · intro a b h c
    unfold getDeviceCode
    rw [h]
    cases hval : lookupKey deviceCodeMap (toUpperCase b) <;> simp [hval]
  · intro a h
    unfold getDeviceCode
    have hnone : lookupKey deviceCodeMap (toUpperCase a) = none := by
      apply (lookupKey_none_iff _ _).mpr
      simpa [deviceCodeMap] using h
    rw [hnone]
  · intro dev now dp s m h
    have hread : readDataPoint dev dp = .error m := by
      unfold readDataPoint
      rw [h]
    simp [pollDataPoint, hread, getCacheItem, lookupKey_setKey_self]
  · intro dev now key v s dp m hfind hcode
    unfold writeData
    simp only [hfind, hcode]

/-- Claim C10 witness: `d` and `D` resolve identically; `q` errors;
polling a definition with region `q` stores the error in the cache; a
write to a registered `q`-region key throws and leaves the state
untouched. -/
theorem claim_C10_region_resolution_witness :
    (getDeviceCode "d" = .ok .D ↔ getDeviceCode "D" = .ok .D) ∧
    getDeviceCode "q" = .error "Invalid address type: q" ∧
    getCacheItem (pollDataPoint okDevice 100 dpBadRegion stBadRegion)
        "odd" = some ⟨.nums [], 100, some "Invalid address type: q"⟩ ∧
    writeData okDevice 100 "odd" (.nums [1]) stBadRegion =
      (.error "Invalid address type: q", stBadRegion) := by
  have h := claim_C10_region_resolution
  refine ⟨h.1 "d" "D" (by decide) .D, h.2.2.1 "q" (by decide), ?_, ?_⟩
  · exact h.2.2.2.1 okDevice 100 dpBadRegion stBadRegion
      "Invalid address type: q" (by decide)
  · exact h.2.2.2.2 okDevice 100 "odd" (.nums [1]) stBadRegion dpBadRegion
      "Invalid address type: q" (by decide) (by decide)

end PlcMonitor
